import Mathlib

/-!
Shallow embedding of `dominance.py` from tools4origins/swisspeak.

Cell values are modelled as `Int` (the claims under scrutiny only involve
integer-valued grids, and Python integer arithmetic on such values is exact).
`euclidean_distance` in the source returns `sqrt` of an integer; every use of
it in the program is a comparison (`<` against another distance, or `ceil`), so
it is embedded exactly by the squared distance (a natural number) together with
an exact integer ceiling-of-square-root function.
-/

namespace Swisspeak

/-- `matrix_data[r][c]`: row-major cell access.  The source would raise on an
out-of-range index; every access in the modelled executions is in bounds, and
out-of-range access defaults to `0` here. -/
def cell (m : List (List Int)) (r c : Nat) : Int :=
  (m.getD r []).getD c 0

/-- `manhattan_distance(p1, p2) = abs(p2[0]-p1[0]) + abs(p2[1]-p1[1])`. -/
def manhattan_distance (p1 p2 : Nat × Nat) : Nat :=
  ((p2.1 : Int) - (p1.1 : Int)).natAbs + ((p2.2 : Int) - (p1.2 : Int)).natAbs

/-- The square of `euclidean_distance(p1, p2) = sqrt((p2[0]-p1[0])**2 + (p2[1]-p1[1])**2)`.
Comparisons between two euclidean distances are embedded as comparisons of the
squares (real `sqrt` is strictly monotone on nonnegative arguments). -/
def euclidean_distance_sq (p1 p2 : Nat × Nat) : Nat :=
  (((p2.1 : Int) - (p1.1 : Int)) ^ 2 + ((p2.2 : Int) - (p1.2 : Int)) ^ 2).toNat

/-- `math.ceil(math.sqrt(n))` for a natural number `n`, computed exactly: the
least `k` with `n ≤ k * k` (such a `k` exists below `n + 1` since `n ≤ n * n`
for every `n ≠ 0`, and `0` works for `n = 0`). -/
def ceilSqrt (n : Nat) : Nat :=
  ((List.range (n + 1)).find? fun k => n ≤ k * k).getD n

/-- The eight neighbor offsets `dr = [-1,-1,-1,0,0,1,1,1]`, `dc = [-1,0,1,-1,1,-1,0,1]`
zipped together. -/
def offsets : List (Int × Int) :=
  [(-1, -1), (-1, 0), (-1, 1), (0, -1), (0, 1), (1, -1), (1, 0), (1, 1)]

/-- The inner `for i in range(8)` loop of the border pass: `(r,c)` is a border
cell when some 8-neighbor is out of bounds, is NODATA, or is not strictly
higher than the peak value. -/
def is_border (m : List (List Int)) (nrows ncols : Nat) (nodata peak_value : Int)
    (r c : Nat) : Bool :=
  offsets.any fun o =>
    let nr : Int := (r : Int) + o.1
    let nc : Int := (c : Int) + o.2
    if 0 ≤ nr ∧ nr < (nrows : Int) ∧ 0 ≤ nc ∧ nc < (ncols : Int) then
      let neighbor_value := cell m nr.toNat nc.toNat
      decide (neighbor_value = nodata ∨ neighbor_value ≤ peak_value)
    else
      true

/-- Step 1 of `calculate_peak_dominance`: the double loop collecting every cell
that is not NODATA, strictly higher than the peak value, and a border cell.
The source stores the cells in a `set` and then lists it; here they are listed
in construction order (the scan below is order-independent, see the
permutation-invariance theorem). -/
def higher_border_cells (m : List (List Int)) (nrows ncols : Nat)
    (nodata peak_value : Int) : List (Nat × Nat) :=
  (List.range nrows).flatMap fun r =>
    (List.range ncols).filterMap fun c =>
      if cell m r c ≠ nodata ∧ peak_value < cell m r c ∧
          is_border m nrows ncols nodata peak_value r c then
        some (r, c)
      else
        none

/-- The `for br, bc in higher_border_cells` loop of
`adapt_value_based_on_dominance`: skip a border cell when its Manhattan
distance exceeds `manhattan_sup`, otherwise return `False` (not dominated) as
soon as a border cell strictly closer than the peak is found; `True`
(dominated) when the scan completes. -/
def border_scan (p : Nat × Nat) (d2p msup : Nat) : List (Nat × Nat) → Bool
  | [] => true
  | b :: rest =>
    if msup < manhattan_distance p b then
      border_scan p d2p msup rest
    else if euclidean_distance_sq p b < d2p then
      false
    else
      border_scan p d2p msup rest

/-- `adapt_value_based_on_dominance(matrix_data, r, c, nodata_value, peak_row,
peak_col, higher_border_cells)`, returning the `(row_value, is_dominated)` pair. -/
def adapt_value_based_on_dominance (m : List (List Int)) (r c : Nat) (nodata : Int)
    (peak_row peak_col : Nat) (hbc : List (Nat × Nat)) : Int × Bool :=
  let current_cell_value := cell m r c
  if current_cell_value = nodata then
    (nodata, false)
  else if r = peak_row ∧ c = peak_col then
    (nodata, false)
  else
    let d2p := euclidean_distance_sq (r, c) (peak_row, peak_col)
    let manhattan_sup := ceilSqrt d2p
    if hbc = [] then
      (current_cell_value, false)
    else
      (current_cell_value, border_scan (r, c) d2p manhattan_sup hbc)

/-- `calculate_peak_dominance(matrix_data, ncols, nrows, nodata_value,
peak_row, peak_col)`.  The source first validates the peak coordinates
(exiting the process otherwise); the theorems below assume an in-bounds peak.
The output matrix, initialised to `nodata_value` and then assigned at every
`(r, c)`, is rendered as a row-major construction. -/
def calculate_peak_dominance (m : List (List Int)) (ncols nrows : Nat)
    (nodata : Int) (peak_row peak_col : Nat) : List (List Int) :=
  let peak_value := cell m peak_row peak_col
  if peak_value = nodata then
    (List.range nrows).map fun r => (List.range ncols).map fun c =>
      if cell m r c = nodata then nodata else 0
  else
    let hbc := higher_border_cells m nrows ncols nodata peak_value
    (List.range nrows).map fun r => (List.range ncols).map fun c =>
      let rv := adapt_value_based_on_dominance m r c nodata peak_row peak_col hbc
      if rv.2 then -rv.1 else rv.1

/-- Spec-side scan for the refinement comparison of the pre-filter: the
brute-force scan over all border cells that computes the true (squared)
euclidean distance to every border cell with no Manhattan pre-filter. -/
def border_scan_unfiltered (p : Nat × Nat) (d2p : Nat) : List (Nat × Nat) → Bool
  | [] => true
  | b :: rest =>
    if euclidean_distance_sq p b < d2p then
      false
    else
      border_scan_unfiltered p d2p rest

/-- 4x4 grid exercising the Manhattan pre-filter: peak at `(3, 0)` with value
`10`, a single higher border cell at `(2, 2)` with value `20`, all other cells
`5`. -/
def filterGrid : List (List Int) :=
  [[5, 5, 5, 5],
   [5, 5, 5, 5],
   [5, 5, 20, 5],
   [10, 5, 5, 5]]

/-- 3x3 grid of the empty-border end-to-end example: peak at `(1, 1)` with
value `10`, every other cell `5`, so no cell exceeds the peak. -/
def emptyBorderGrid : List (List Int) :=
  [[5, 5, 5],
   [5, 10, 5],
   [5, 5, 5]]

/-- C1: the Manhattan pre-filter of the dominance scan is not sound.  On
`filterGrid` with peak `(3, 0)` (value 10), the only higher border cell is
`(2, 2)`; for cell `(0, 0)` the filter skips it because the Manhattan distance
4 exceeds `ceil(euclideanDistance((0,0),(3,0))) = ceil(3) = 3`, yet the true
squared euclidean distance to the border cell is 8 < 9, i.e. the border cell is
strictly closer than the peak.  Consequently the filtered scan classifies
`(0, 0)` as dominated (output `-5`) while the unfiltered brute-force scan over
all border cells reports not dominated: the two scans disagree, refuting the
claimed equivalence. -/
theorem manhattan_prefilter_skips_closer_border_cell :
    higher_border_cells filterGrid 4 4 (-9999) 10 = [(2, 2)]
    ∧ manhattan_distance (0, 0) (2, 2) = 4
    ∧ ceilSqrt (euclidean_distance_sq (0, 0) (3, 0)) = 3
    ∧ euclidean_distance_sq (0, 0) (2, 2) = 8
    ∧ euclidean_distance_sq (0, 0) (3, 0) = 9
    ∧ adapt_value_based_on_dominance filterGrid 0 0 (-9999) 3 0
        (higher_border_cells filterGrid 4 4 (-9999) 10) = (5, true)
    ∧ border_scan_unfiltered (0, 0) (euclidean_distance_sq (0, 0) (3, 0))
        (higher_border_cells filterGrid 4 4 (-9999) 10) = false
    ∧ cell (calculate_peak_dominance filterGrid 4 4 (-9999) 3 0) 0 0 = -5 := by
  decide

/-- C2: when `higher_border_cells` is empty the code classifies every valid
non-peak cell as NOT dominated (the early return at the empty-border check
yields `is_dominated = False`), so on the 3x3 example grid the 8 cells around
the peak come out as `+5`, not the `-5` the claim (and the code's own comment)
expects. -/
theorem empty_border_yields_not_dominated :
    higher_border_cells emptyBorderGrid 3 3 (-9999) 10 = []
    ∧ adapt_value_based_on_dominance emptyBorderGrid 0 0 (-9999) 1 1 [] = (5, false)
    ∧ calculate_peak_dominance emptyBorderGrid 3 3 (-9999) 1 1
        = [[5, 5, 5], [5, -9999, 5], [5, 5, 5]] := by
  decide

/-- C3 counterexample: on the grid `[[-9999, 7]]` with a no-data peak at
`(0, 0)`, the cell `(0, 1)` (whose value is 7) is written as `0`, not as its
original magnitude `+7` — refuting the claim that non-no-data cells hold their
original magnitude in the no-data-peak branch. -/
theorem nodata_peak_outputs_zero_not_magnitude :
    calculate_peak_dominance [[-9999, 7]] 2 1 (-9999) 0 0 = [[-9999, 0]]
    ∧ cell (calculate_peak_dominance [[-9999, 7]] 2 1 (-9999) 0 0) 0 1 ≠ 7 := by
  decide

/-- C10: the sign-negation encoding collides with the no-data sentinel.  On
the grid `[[10000, 9999, 10001]]` with no-data `-9999` and peak `(0, 0)`
(value 10000), cell `(0, 1)` has value `9999 ≠ -9999`, is classified dominated
(the only border cell `(0, 2)` is not strictly closer than the peak), and its
output `-9999` equals the no-data sentinel. -/
theorem dominated_value_collides_with_nodata :
    cell [[10000, 9999, 10001]] 0 1 = 9999
    ∧ (9999 : Int) ≠ -9999
    ∧ adapt_value_based_on_dominance [[10000, 9999, 10001]] 0 1 (-9999) 0 0
        (higher_border_cells [[10000, 9999, 10001]] 1 3 (-9999) 10000) = (9999, true)
    ∧ cell (calculate_peak_dominance [[10000, 9999, 10001]] 3 1 (-9999) 0 0) 0 1 = -9999 := by
  decide

/-- Cell access into a grid built as a row-major double map over index ranges. -/
theorem cell_map_range (f : Nat → Nat → Int) (nrows ncols r c : Nat)
    (hr : r < nrows) (hc : c < ncols) :
    cell ((List.range nrows).map fun i => (List.range ncols).map fun j => f i j) r c = f r c := by
  simp [cell, List.getD_eq_getElem?_getD, List.getElem?_map, List.getElem?_range, hr, hc]

/-- C3 (amended): with a no-data peak, every no-data cell stays the no-data
sentinel and every other cell is written as the literal `0` (not its original
magnitude); the no-data-peak check short-circuits the whole per-cell dominance
loop. -/
theorem nodata_peak_grid_spec (m : List (List Int)) (ncols nrows : Nat) (nodata : Int)
    (pr pc : Nat) (hpr : pr < nrows) (hpc : pc < ncols)
    (hpeak : cell m pr pc = nodata) :
    (calculate_peak_dominance m ncols nrows nodata pr pc).length = nrows
    ∧ ∀ r c : Nat, r < nrows → c < ncols →
        cell (calculate_peak_dominance m ncols nrows nodata pr pc) r c
          = if cell m r c = nodata then nodata else 0 := by
  unfold calculate_peak_dominance
  dsimp only
  rw [if_pos hpeak]
  refine ⟨by simp, fun r c hr hc => ?_⟩
  rw [cell_map_range _ _ _ _ _ hr hc]

/-- Witness for the amended C3 statement at the counterexample grid. -/
theorem nodata_peak_grid_spec_witness :
    cell (calculate_peak_dominance [[-9999, 7]] 2 1 (-9999) 0 0) 0 1 = 0 := by
  simpa using
    (nodata_peak_grid_spec [[-9999, 7]] 2 1 (-9999) 0 0 (by decide) (by decide)
      (by decide)).2 0 1 (by decide) (by decide)

/-- C5: the output of `calculate_peak_dominance` at the peak's own coordinate
is the no-data sentinel, whatever the grid contents (in both the no-data-peak
branch and the main branch, the peak cell maps to `nodata_value`). -/
theorem peak_cell_output_is_nodata (m : List (List Int)) (ncols nrows : Nat) (nodata : Int)
    (pr pc : Nat) (hpr : pr < nrows) (hpc : pc < ncols) :
    cell (calculate_peak_dominance m ncols nrows nodata pr pc) pr pc = nodata := by
  unfold calculate_peak_dominance
  dsimp only
  split_ifs with h
  · rw [cell_map_range _ _ _ _ _ hpr hpc]
    simp [h]
  · rw [cell_map_range _ _ _ _ _ hpr hpc]
    simp [adapt_value_based_on_dominance, h]

/-- Witness for C5 at the 3x3 example grid. -/
theorem peak_cell_output_is_nodata_witness :
    cell (calculate_peak_dominance emptyBorderGrid 3 3 (-9999) 1 1) 1 1 = -9999 :=
  peak_cell_output_is_nodata emptyBorderGrid 3 3 (-9999) 1 1 (by decide) (by decide)

/-- The inner neighbor loop succeeds exactly on the escape conditions stated by
the spec: some 8-neighbor is out of bounds, no-data, or not strictly higher. -/
theorem is_border_iff (m : List (List Int)) (nrows ncols : Nat) (nodata thr : Int) (r c : Nat) :
    is_border m nrows ncols nodata thr r c = true ↔
      ∃ o ∈ offsets,
        ¬((0 : Int) ≤ (r : Int) + o.1 ∧ (r : Int) + o.1 < (nrows : Int) ∧
            (0 : Int) ≤ (c : Int) + o.2 ∧ (c : Int) + o.2 < (ncols : Int))
        ∨ cell m ((r : Int) + o.1).toNat ((c : Int) + o.2).toNat = nodata
        ∨ cell m ((r : Int) + o.1).toNat ((c : Int) + o.2).toNat ≤ thr := by
  unfold is_border
  rw [List.any_eq_true]
  refine exists_congr fun o => and_congr_right fun _ => ?_
  dsimp only
  split_ifs with h
  · simp [h]
  · simp [h]

/-- Membership in the extracted border set, characterised cell by cell. -/
theorem mem_higher_border_cells (m : List (List Int)) (nrows ncols : Nat)
    (nodata thr : Int) (r c : Nat) :
    (r, c) ∈ higher_border_cells m nrows ncols nodata thr ↔
      r < nrows ∧ c < ncols ∧ cell m r c ≠ nodata ∧ thr < cell m r c ∧
        ∃ o ∈ offsets,
          ¬((0 : Int) ≤ (r : Int) + o.1 ∧ (r : Int) + o.1 < (nrows : Int) ∧
              (0 : Int) ≤ (c : Int) + o.2 ∧ (c : Int) + o.2 < (ncols : Int))
          ∨ cell m ((r : Int) + o.1).toNat ((c : Int) + o.2).toNat = nodata
          ∨ cell m ((r : Int) + o.1).toNat ((c : Int) + o.2).toNat ≤ thr := by
  unfold higher_border_cells
  simp only [List.mem_flatMap, List.mem_filterMap, List.mem_range]
  constructor
  · rintro ⟨r', hr', c', hc', hsome⟩
    by_cases hcond : cell m r' c' ≠ nodata ∧ thr < cell m r' c' ∧
        is_border m nrows ncols nodata thr r' c' = true
    · rw [if_pos hcond] at hsome
      simp only [Option.some.injEq, Prod.mk.injEq] at hsome
      obtain ⟨rfl, rfl⟩ := hsome
      exact ⟨hr', hc', hcond.1, hcond.2.1,
        (is_border_iff m nrows ncols nodata thr _ _).mp hcond.2.2⟩
    · rw [if_neg hcond] at hsome
      exact absurd hsome (by simp)
  · rintro ⟨hr, hc, hnd, hlt, hesc⟩
    refine ⟨r, hr, c, hc, ?_⟩
    rw [if_pos ⟨hnd, hlt, (is_border_iff m nrows ncols nodata thr r c).mpr hesc⟩]

/-- C4: the border-extraction step produces exactly the cells that are in
bounds, non-no-data, strictly above the threshold, and have an 8-neighbor that
escapes (out of bounds, no-data, or not above the threshold); the set is empty
when no in-bounds cell exceeds the threshold, and a cell whose value equals
the threshold is never included. -/
theorem higher_border_cells_characterization (m : List (List Int)) (nrows ncols : Nat)
    (nodata thr : Int) :
    (∀ r c : Nat,
      ((r, c) ∈ higher_border_cells m nrows ncols nodata thr ↔
        r < nrows ∧ c < ncols ∧ cell m r c ≠ nodata ∧ thr < cell m r c ∧
          ∃ o ∈ offsets,
            ¬((0 : Int) ≤ (r : Int) + o.1 ∧ (r : Int) + o.1 < (nrows : Int) ∧
                (0 : Int) ≤ (c : Int) + o.2 ∧ (c : Int) + o.2 < (ncols : Int))
            ∨ cell m ((r : Int) + o.1).toNat ((c : Int) + o.2).toNat = nodata
            ∨ cell m ((r : Int) + o.1).toNat ((c : Int) + o.2).toNat ≤ thr))
    ∧ ((∀ r c : Nat, r < nrows → c < ncols → cell m r c ≤ thr) →
        higher_border_cells m nrows ncols nodata thr = [])
    ∧ (∀ r c : Nat, cell m r c = thr →
        (r, c) ∉ higher_border_cells m nrows ncols nodata thr) := by
  refine ⟨fun r c => mem_higher_border_cells m nrows ncols nodata thr r c, ?_, ?_⟩
  · intro h
    rw [List.eq_nil_iff_forall_not_mem]
    rintro ⟨r, c⟩ hmem
    obtain ⟨hr, hc, _, hlt, _⟩ := (mem_higher_border_cells m nrows ncols nodata thr r c).mp hmem
    exact absurd (h r c hr hc) (not_le.mpr hlt)
  · intro r c heq hmem
    obtain ⟨_, _, _, hlt, _⟩ := (mem_higher_border_cells m nrows ncols nodata thr r c).mp hmem
    omega

/-- Witness for C4: one grid where a qualifying edge cell is a member, one
where no cell exceeds the threshold so the set is empty, and one where a cell
exactly at the threshold is excluded. -/
theorem higher_border_cells_characterization_witness :
    (0, 1) ∈ higher_border_cells [[1, 20]] 1 2 (-9999) 1
    ∧ higher_border_cells [[0]] 1 1 (-9999) 1 = []
    ∧ (0, 0) ∉ higher_border_cells [[3]] 1 1 (-9999) 3 := by
  refine ⟨?_, ?_, ?_⟩
  · exact ((higher_border_cells_characterization [[1, 20]] 1 2 (-9999) 1).1 0 1).mpr (by decide)
  · exact (higher_border_cells_characterization [[0]] 1 1 (-9999) 1).2.1
      (by intro r c hr hc; interval_cases r; interval_cases c; decide)
  · exact (higher_border_cells_characterization [[3]] 1 1 (-9999) 3).2.2 0 0 (by decide)

/-- The border-cell loop is an existence check: it reports not-dominated
exactly when some listed border cell survives the Manhattan filter and is
strictly closer than the peak. -/
theorem border_scan_eq_not_any (p : Nat × Nat) (d2p msup : Nat) (l : List (Nat × Nat)) :
    border_scan p d2p msup l
      = !(l.any fun b =>
          !decide (msup < manhattan_distance p b) && decide (euclidean_distance_sq p b < d2p)) := by
  induction l with
  | nil => rfl
  | cons b rest ih =>
    by_cases h1 : msup < manhattan_distance p b
    · simp [border_scan, h1, ih, List.any_cons]
    · by_cases h2 : euclidean_distance_sq p b < d2p
      · simp [border_scan, h1, h2, List.any_cons]
      · simp [border_scan, h1, h2, ih, List.any_cons]

/-- C9: `adapt_value_based_on_dominance` is invariant under permuting the list
of higher border cells, so materialising the unordered set in any order yields
the same `(value, is_dominated)` pair for every cell. -/
theorem adapt_value_perm_invariant (m : List (List Int)) (r c : Nat) (nodata : Int)
    (pr pc : Nat) (l₁ l₂ : List (Nat × Nat)) (h : l₁.Perm l₂) :
    adapt_value_based_on_dominance m r c nodata pr pc l₁
      = adapt_value_based_on_dominance m r c nodata pr pc l₂ := by
  unfold adapt_value_based_on_dominance
  dsimp only
  have hany : ∀ f : (Nat × Nat) → Bool, l₁.any f = l₂.any f := fun f => by
    rw [Bool.eq_iff_iff]
    simp only [List.any_eq_true]
    exact ⟨fun ⟨x, hx, hfx⟩ => ⟨x, h.mem_iff.mp hx, hfx⟩,
           fun ⟨x, hx, hfx⟩ => ⟨x, h.mem_iff.mpr hx, hfx⟩⟩
  by_cases hnd : cell m r c = nodata
  · simp [hnd]
  by_cases hpk : r = pr ∧ c = pc
  · simp [hnd, hpk]
  by_cases hn : l₁ = []
  · have hn2 : l₂ = [] := List.Perm.eq_nil (hn ▸ h.symm)
    simp [hnd, hpk, hn, hn2]
  · have hn2 : l₂ ≠ [] := fun he => hn (List.Perm.eq_nil (he ▸ h))
    simp [hnd, hpk, hn, hn2, border_scan_eq_not_any, hany]

/-- Witness for C9: swapping a two-element border list leaves the result
unchanged. -/
theorem adapt_value_perm_invariant_witness :
    adapt_value_based_on_dominance [[1, 2], [3, 4]] 0 0 (-9999) 1 1 [(0, 1), (1, 0)]
      = adapt_value_based_on_dominance [[1, 2], [3, 4]] 0 0 (-9999) 1 1 [(1, 0), (0, 1)] :=
  adapt_value_perm_invariant [[1, 2], [3, 4]] 0 0 (-9999) 1 1 _ _ (List.Perm.swap _ _ _)

/-!
Embedding of the grid text format (`read_ascii_matrix` / `write_ascii_matrix`).

A file is modelled as its list of lines after `strip()`, each line as its list
of whitespace-separated tokens (`line.split()`).  A numeric token is modelled
by its parsed integer value (the round-trip claim is restricted to
integer-valued grids, for which Python prints and re-parses numbers exactly);
`Token.word` stands for any token that does not parse as a number.  All the
fatal `exit(1)` paths of the reader are modelled as `Except.error`, so no
partial grid is ever produced on those paths.
-/

/-- A whitespace-separated token of the grid text format. -/
inductive Token where
  | num (n : Int)
  | word (s : String)
deriving DecidableEq

/-- A file: lines of tokens. -/
abbrev AsciiFile := List (List Token)

/-- The header variables of `read_ascii_matrix` with their initial values
`ncols = 0`, `nrows = 0`, `nodata_value = -9999.0`. -/
structure HeaderState where
  ncols : Int
  nrows : Int
  nodata_value : Int
deriving DecidableEq

/-- One iteration of the header-parsing loop: `parts[0]` is the key,
`parts[1]` the value (extra tokens are ignored); `ncols`/`nrows` parse the
value with `int(...)` and `NODATA_value` with `float(...)` (a fatal error on a
non-numeric token); `xllcorner`/`yllcorner`/`cellsize` are skipped and any
other key only triggers a warning. A line with fewer than two tokens is a
fatal error. -/
def parse_header_line (st : HeaderState) (l : List Token) : Except String HeaderState :=
  match l with
  | [] => .error "Malformed header line"
  | [_] => .error "Malformed header line"
  | k :: v :: _ =>
    if k = Token.word "ncols" then
      match v with
      | .num n => .ok { st with ncols := n }
      | .word _ => .error "invalid literal for int with base 10"
    else if k = Token.word "nrows" then
      match v with
      | .num n => .ok { st with nrows := n }
      | .word _ => .error "invalid literal for int with base 10"
    else if k = Token.word "NODATA_value" then
      match v with
      | .num n => .ok { st with nodata_value := n }
      | .word _ => .error "could not convert string to float"
    else
      .ok st

/-- The `for line in header_lines` loop. -/
def parse_header_lines (st : HeaderState) : List (List Token) → Except String HeaderState
  | [] => .ok st
  | l :: rest =>
    match parse_header_line st l with
    | .ok st' => parse_header_lines st' rest
    | .error e => .error e

/-- `[float(x) for x in line.strip().split()]`: a data row parses iff every
token is numeric. -/
def parse_row : List Token → Except String (List Int)
  | [] => .ok []
  | Token.num n :: rest =>
    match parse_row rest with
    | .ok row => .ok (n :: row)
    | .error e => .error e
  | Token.word _ :: _ => .error "could not convert string to float"

/-- The `for line in f` data loop. -/
def parse_rows : List (List Token) → Except String (List (List Int))
  | [] => .ok []
  | l :: rest =>
    match parse_row l with
    | .ok row =>
      match parse_rows rest with
      | .ok m => .ok (row :: m)
      | .error e => .error e
    | .error e => .error e

/-- `read_ascii_matrix`: six `readline` calls (an empty or missing line is the
fatal "incomplete header"), the header loop, the data loop, and the final
dimension validation; on success the tuple
`(ncols, nrows, nodata_value, matrix_data)`. -/
def read_ascii_matrix (file : AsciiFile) : Except String (Int × Int × Int × List (List Int)) :=
  if file.length < 6 ∨ (file.take 6).any List.isEmpty then
    .error "Input file has an incomplete header."
  else
    match parse_header_lines ⟨0, 0, -9999⟩ (file.take 6) with
    | .error e => .error e
    | .ok st =>
      match parse_rows (file.drop 6) with
      | .error e => .error e
      | .ok matrix_data =>
        if 0 < st.ncols ∧ 0 < st.nrows ∧ (matrix_data.length : Int) = st.nrows ∧
            ∀ row ∈ matrix_data, (row.length : Int) = st.ncols then
          .ok (st.ncols, st.nrows, st.nodata_value, matrix_data)
        else
          .error "Matrix dimensions from header do not match actual data or data is malformed."

/-- `write_ascii_matrix(filepath, matrix_data, ncols, nrows, nodata_value)`:
the six header lines in the fixed order written by the source, then one line
per row with every value written as an integer token (`int(val)` is the
identity on the integer-valued grids considered here). -/
def write_ascii_matrix (m : List (List Int)) (ncols nrows : Int) (nodata : Int) : AsciiFile :=
  [[Token.word "ncols", Token.num ncols],
   [Token.word "nrows", Token.num nrows],
   [Token.word "NODATA_value", Token.num nodata],
   [Token.word "xllcorner", Token.word "N/A"],
   [Token.word "yllcorner", Token.word "N/A"],
   [Token.word "cellsize", Token.word "N/A"]]
  ++ m.map fun row => row.map Token.num

/-- A data row consisting only of numeric tokens parses back to its values. -/
theorem parse_row_map_num (row : List Int) : parse_row (row.map Token.num) = .ok row := by
  induction row with
  | nil => rfl
  | cons v rest ih => simp [parse_row, ih]

/-- A block of numeric data rows parses back to the original matrix. -/
theorem parse_rows_map_num (m : List (List Int)) :
    parse_rows (m.map fun row => row.map Token.num) = .ok m := by
  induction m with
  | nil => rfl
  | cons row rest ih => simp [parse_rows, parse_row_map_num, ih]

/-- C6: writing a grid with positive declared dimensions and matching
rectangular rows, then reading the file back, succeeds and reproduces the same
`ncols`, `nrows`, no-data value and exactly the same cell values. -/
theorem write_read_roundtrip (m : List (List Int)) (ncols nrows nodata : Int)
    (h1 : 0 < ncols) (h2 : 0 < nrows) (h3 : (m.length : Int) = nrows)
    (h4 : ∀ row ∈ m, (row.length : Int) = ncols) :
    read_ascii_matrix (write_ascii_matrix m ncols nrows nodata)
      = .ok (ncols, nrows, nodata, m) := by
  unfold write_ascii_matrix read_ascii_matrix
  simp [parse_header_lines, parse_header_line, parse_rows_map_num, h1, h2, h3, h4]
  rw [if_neg (by omega), if_pos h4]

/-- Witness for C6 on a concrete 2x2 grid. -/
theorem write_read_roundtrip_witness :
    read_ascii_matrix (write_ascii_matrix [[1, 2], [3, 4]] 2 2 (-9999))
      = .ok (2, 2, -9999, [[1, 2], [3, 4]]) :=
  write_read_roundtrip [[1, 2], [3, 4]] 2 2 (-9999) (by decide) (by decide) (by decide)
    (by decide)

/-- A recognized header key followed by a non-numeric value token is a fatal
parse error, whatever the current header state. -/
theorem parse_header_line_recognized_word (st : HeaderState) (key s : String)
    (rest : List Token)
    (hkey : key = "ncols" ∨ key = "nrows" ∨ key = "NODATA_value") :
    ∃ e, parse_header_line st (Token.word key :: Token.word s :: rest) = .error e := by
  rcases hkey with rfl | rfl | rfl <;> simp [parse_header_line]

/-- If some header line fails to parse from every state, the whole header loop
fails. -/
theorem parse_header_lines_bad_line (ls : List (List Token)) (l : List Token)
    (hmem : l ∈ ls) (hbad : ∀ st, ∃ e, parse_header_line st l = .error e) :
    ∀ st, ∃ e, parse_header_lines st ls = .error e := by
  induction ls with
  | nil => cases hmem
  | cons l' rest ih =>
    intro st
    rcases List.mem_cons.mp hmem with rfl | hmem'
    · obtain ⟨e, he⟩ := hbad st
      exact ⟨e, by simp [parse_header_lines, he]⟩
    · cases hpl : parse_header_line st l' with
      | ok st' =>
        obtain ⟨e, he⟩ := ih hmem' st'
        exact ⟨e, by simp [parse_header_lines, hpl, he]⟩
      | error e => exact ⟨e, by simp [parse_header_lines, hpl]⟩

/-- C7: `read_ascii_matrix` fails (returns no grid) when fewer than six header
lines are present, when a recognized header field's value is a non-numeric
token, and when the parsed header is non-positive or disagrees with the parsed
data rows (absent dimension keys leave the defaults `ncols = nrows = 0`, which
are non-positive); and whenever it does return a grid, the declared dimensions
are positive and match the returned rows exactly. -/
theorem read_ascii_matrix_error_conditions (file : AsciiFile) :
    ((file.length < 6 → (read_ascii_matrix file).isOk = false)
    ∧ (∀ l ∈ file.take 6, ∀ key s rest,
        (key = "ncols" ∨ key = "nrows" ∨ key = "NODATA_value") →
        l = Token.word key :: Token.word s :: rest →
        (read_ascii_matrix file).isOk = false)
    ∧ (∀ st m, parse_header_lines ⟨0, 0, -9999⟩ (file.take 6) = .ok st →
        parse_rows (file.drop 6) = .ok m →
        (st.ncols ≤ 0 ∨ st.nrows ≤ 0 ∨ (m.length : Int) ≠ st.nrows ∨
          ∃ row ∈ m, (row.length : Int) ≠ st.ncols) →
        (read_ascii_matrix file).isOk = false)
    ∧ (∀ nc nr nd m, read_ascii_matrix file = .ok (nc, nr, nd, m) →
        0 < nc ∧ 0 < nr ∧ (m.length : Int) = nr ∧ ∀ row ∈ m, (row.length : Int) = nc)) := by
  refine ⟨?_, ?_, ?_, ?_⟩
  · intro h
    unfold read_ascii_matrix
    rw [if_pos (Or.inl h)]
    rfl
  · intro l hl key s rest hkey hshape
    subst hshape
    by_cases hpre : file.length < 6 ∨ (file.take 6).any List.isEmpty
    · unfold read_ascii_matrix
      rw [if_pos hpre]
      rfl
    · obtain ⟨e, he⟩ := parse_header_lines_bad_line (file.take 6) _ hl
        (fun st => parse_header_line_recognized_word st key s rest hkey) ⟨0, 0, -9999⟩
      unfold read_ascii_matrix
      rw [if_neg hpre]
      simp only [he]
      rfl
  · intro st m hst hm hviol
    by_cases hpre : file.length < 6 ∨ (file.take 6).any List.isEmpty
    · unfold read_ascii_matrix
      rw [if_pos hpre]
      rfl
    · have hcond : ¬(0 < st.ncols ∧ 0 < st.nrows ∧ (m.length : Int) = st.nrows ∧
          ∀ row ∈ m, (row.length : Int) = st.ncols) := by
        rintro ⟨hc, hr, hlen, hrow⟩
        rcases hviol with h | h | h | ⟨row, hrowm, hne⟩
        · omega
        · omega
        · exact h hlen
        · exact hne (hrow row hrowm)
      unfold read_ascii_matrix
      rw [if_neg hpre]
      simp only [hst, hm]
      rw [if_neg hcond]
      rfl
  · intro nc nr nd m h
    unfold read_ascii_matrix at h
    split at h
    · exact absurd h (by simp)
    · split at h
      · exact absurd h (by simp)
      · split at h
        · exact absurd h (by simp)
        · split at h
          · rename_i st mdata hcond
            simp only [Except.ok.injEq, Prod.mk.injEq] at h
            obtain ⟨rfl, rfl, rfl, rfl⟩ := h
            exact hcond
          · exact absurd h (by simp)

/-- Witness for C7: the empty file fails, and a file whose `ncols` value token
is the non-numeric `abc` fails. -/
theorem read_ascii_matrix_error_conditions_witness :
    (read_ascii_matrix []).isOk = false
    ∧ (read_ascii_matrix [[Token.word "ncols", Token.word "abc"],
        [Token.word "nrows", Token.num 1],
        [Token.word "NODATA_value", Token.num (-9999)],
        [Token.word "xllcorner", Token.word "N/A"],
        [Token.word "yllcorner", Token.word "N/A"],
        [Token.word "cellsize", Token.word "N/A"],
        [Token.num 5]]).isOk = false :=
  ⟨(read_ascii_matrix_error_conditions []).1 (by decide),
   (read_ascii_matrix_error_conditions _).2.1 _ (by simp)
     "ncols" "abc" [] (Or.inl rfl) rfl⟩

/-!
Mutation model for `calculate_peak_dominance` (claim about frame effects).
The imperative body is re-embedded as explicit state passing: the state holds
the input `matrix_data` and the mutable `output_matrix`, every source
assignment `output_matrix[r][c] = ...` becomes an explicit `setCell` on the
`output_matrix` field, and every read goes through the state's `matrix_data`
field.  The source contains no assignment to `matrix_data`, which is what the
no-mutation theorem below verifies; the theorem also shows the resulting
output equals the functional rendering above, so the output is a fresh grid
determined by the input alone.
-/

/-- The two matrices in scope inside `calculate_peak_dominance`. -/
structure DomState where
  matrix_data : List (List Int)
  output_matrix : List (List Int)

/-- `m[r][c] = v` on a list-of-lists matrix. -/
def setCell (m : List (List Int)) (r c : Nat) (v : Int) : List (List Int) :=
  m.set r ((m.getD r []).set c v)

/-- `calculate_peak_dominance` with its mutations made explicit: the output
matrix is re-initialised to an `nrows x ncols` grid of `nodata_value`, then
each branch assigns every cell of `output_matrix` in the row-major double
loop, reading only from `matrix_data`. -/
def calculate_peak_dominance_state (st : DomState) (ncols nrows : Nat)
    (nodata : Int) (peak_row peak_col : Nat) : DomState :=
  let st1 : DomState :=
    { st with output_matrix := (List.range nrows).map fun _ => (List.range ncols).map fun _ => nodata }
  let peak_value := cell st1.matrix_data peak_row peak_col
  if peak_value = nodata then
    (List.range nrows).foldl
      (fun s r => (List.range ncols).foldl
        (fun s c =>
          { s with output_matrix := (setCell s.output_matrix r c (if cell s.matrix_data r c = nodata then nodata else 0)) }) s)
      st1
  else
    let hbc := higher_border_cells st1.matrix_data nrows ncols nodata peak_value
    (List.range nrows).foldl
      (fun s r => (List.range ncols).foldl
        (fun s c =>
          let rv := adapt_value_based_on_dominance s.matrix_data r c nodata peak_row peak_col hbc
          { s with output_matrix := setCell s.output_matrix r c (if rv.2 then -rv.1 else rv.1) }) s)
      st1

/-- The inner column loop only writes `output_matrix`; `matrix_data` threads
through unchanged. -/
theorem foldl_cells_state (f : List (List Int) → Nat → Nat → Int) (r : Nat)
    (cols : List Nat) (m out : List (List Int)) :
    cols.foldl
        (fun s c => { s with output_matrix := setCell s.output_matrix r c (f s.matrix_data r c) })
        (⟨m, out⟩ : DomState)
      = ⟨m, cols.foldl (fun o c => setCell o r c (f m r c)) out⟩ := by
  induction cols generalizing out with
  | nil => rfl
  | cons c t ih =>
    simp only [List.foldl_cons]
    exact ih _

/-- The full double loop only writes `output_matrix`; `matrix_data` threads
through unchanged. -/
theorem foldl_rows_state (f : List (List Int) → Nat → Nat → Int)
    (rows cols : List Nat) (m out : List (List Int)) :
    rows.foldl
        (fun s r => cols.foldl
          (fun s c => { s with output_matrix := setCell s.output_matrix r c (f s.matrix_data r c) }) s)
        (⟨m, out⟩ : DomState)
      = ⟨m, rows.foldl (fun o r => cols.foldl (fun o c => setCell o r c (f m r c)) o) out⟩ := by
  induction rows generalizing out with
  | nil => rfl
  | cons r t ih =>
    simp only [List.foldl_cons]
    rw [foldl_cells_state]
    exact ih _

/-- Writing cells `0, ..., k-1` of a row in order yields the map over the
written prefix with the original suffix untouched. -/
theorem foldl_set_row_aux (f : Nat → Int) (row : List Int) (k : Nat) (hk : k ≤ row.length) :
    (List.range k).foldl (fun ro c => ro.set c (f c)) row
      = (List.range k).map f ++ row.drop k := by
  induction k with
  | zero => simp
  | succ k ih =>
    rw [List.range_succ, List.foldl_append, ih (by omega)]
    simp only [List.foldl_cons, List.foldl_nil]
    rw [List.set_append, if_neg (by simp), List.map_append]
    simp only [List.length_map, List.length_range, Nat.sub_self]
    rw [List.drop_eq_getElem_cons (by omega : k < row.length), List.set_cons_zero]
    simp

/-- Reading back a freshly set row. -/
theorem getD_set_row (g : List (List Int)) (r : Nat) (x : List Int) (hr : r < g.length) :
    (g.set r x).getD r [] = x := by
  rw [List.getD_eq_getElem?_getD, List.getElem?_set_self (by simpa using hr)]
  rfl

/-- Setting a row to its current value is the identity. -/
theorem set_getD_self (g : List (List Int)) (r : Nat) (hr : r < g.length) :
    g.set r (g.getD r []) = g := by
  apply List.ext_getElem?
  intro n
  rcases eq_or_ne r n with rfl | hne
  · rw [List.getElem?_set_self hr, List.getD_eq_getElem?_getD]
    cases h : g[r]? with
    | none => exact absurd (List.getElem?_eq_none_iff.mp h) (by omega)
    | some row => rfl
  · rw [List.getElem?_set_ne hne]

/-- A column loop of `setCell` writes at a single row: it equals setting that
row to the folded row. -/
theorem foldl_setCell_row (l : List Nat) (g : List (List Int)) (r : Nat) (f : Nat → Int)
    (hr : r < g.length) :
    l.foldl (fun o c => setCell o r c (f c)) g
      = g.set r (l.foldl (fun row c => row.set c (f c)) (g.getD r [])) := by
  induction l generalizing g with
  | nil => exact (set_getD_self g r hr).symm
  | cons c t ih =>
    simp only [List.foldl_cons]
    rw [show setCell g r c (f c) = g.set r ((g.getD r []).set c (f c)) from rfl]
    rw [ih _ (by simpa using hr)]
    rw [getD_set_row g r _ hr, List.set_set]

/-- Writing rows `0, ..., k-1` of the fresh `nodata`-filled matrix in order
yields the map over the written prefix with the untouched fresh suffix. -/
theorem foldl_rows_aux (f : Nat → Nat → Int) (d : Int) (nrows ncols : Nat) (k : Nat)
    (hk : k ≤ nrows) :
    (List.range k).foldl
        (fun o r => (List.range ncols).foldl (fun o' c => setCell o' r c (f r c)) o)
        ((List.range nrows).map fun _ => (List.range ncols).map fun _ => d)
      = ((List.range k).map fun r => (List.range ncols).map fun c => f r c)
        ++ ((List.range nrows).map fun _ => (List.range ncols).map fun _ => d).drop k := by
  induction k with
  | zero => simp
  | succ k ih =>
    rw [List.range_succ, List.foldl_append, ih (by omega)]
    simp only [List.foldl_cons, List.foldl_nil]
    rw [foldl_setCell_row (List.range ncols) _ k (fun c => f k c)
      (by simp; omega)]
    have hgetD : ((((List.range k).map fun r => (List.range ncols).map fun c => f r c))
        ++ ((List.range nrows).map fun _ => (List.range ncols).map fun _ => d).drop k).getD k []
        = (List.range ncols).map fun _ => d := by
      rw [List.getD_eq_getElem?_getD, List.getElem?_append_right (by simp)]
      simp [List.getElem?_drop, List.getElem?_map, List.getElem?_range, show k < nrows by omega]
    rw [hgetD, foldl_set_row_aux (fun c => f k c) _ ncols (by simp)]
    rw [List.set_append, if_neg (by simp)]
    simp only [List.length_map, List.length_range, Nat.sub_self]
    rw [List.drop_eq_getElem_cons (show k <
      (((List.range nrows).map fun _ => (List.range ncols).map fun _ => d)).length by simp; omega)]
    rw [List.set_cons_zero, List.map_append]
    simp [List.drop_eq_nil_of_le]

/-- Assigning every cell of the fresh matrix in the row-major double loop
produces exactly the functional row-major construction. -/
theorem foldl_grid_eq_map (f : Nat → Nat → Int) (d : Int) (nrows ncols : Nat) :
    (List.range nrows).foldl
        (fun o r => (List.range ncols).foldl (fun o' c => setCell o' r c (f r c)) o)
        ((List.range nrows).map fun _ => (List.range ncols).map fun _ => d)
      = (List.range nrows).map fun r => (List.range ncols).map fun c => f r c := by
  rw [foldl_rows_aux f d nrows ncols nrows le_rfl]
  rw [List.drop_eq_nil_of_le (by simp)]
  simp

/-- C8: the state-level rendering of `calculate_peak_dominance` leaves the
input `matrix_data` exactly as it was, and its `output_matrix` is the freshly
constructed grid computed by the functional rendering from the input alone
(in particular it does not depend on the previous output state). -/
theorem calculate_peak_dominance_no_mutation (st : DomState) (ncols nrows : Nat)
    (nodata : Int) (pr pc : Nat) :
    (calculate_peak_dominance_state st ncols nrows nodata pr pc).matrix_data = st.matrix_data
    ∧ (calculate_peak_dominance_state st ncols nrows nodata pr pc).output_matrix
        = calculate_peak_dominance st.matrix_data ncols nrows nodata pr pc := by
  obtain ⟨m, out⟩ := st
  unfold calculate_peak_dominance_state calculate_peak_dominance
  dsimp only
  split_ifs with h
  · rw [foldl_rows_state (fun md r c => if cell md r c = nodata then nodata else 0)]
    exact ⟨rfl, foldl_grid_eq_map (fun r c => if cell m r c = nodata then nodata else 0)
      nodata nrows ncols⟩
  · rw [foldl_rows_state (fun md r c =>
      if (adapt_value_based_on_dominance md r c nodata pr pc
            (higher_border_cells m nrows ncols nodata (cell m pr pc))).2 then
        -(adapt_value_based_on_dominance md r c nodata pr pc
            (higher_border_cells m nrows ncols nodata (cell m pr pc))).1
      else
        (adapt_value_based_on_dominance md r c nodata pr pc
            (higher_border_cells m nrows ncols nodata (cell m pr pc))).1)]
    exact ⟨rfl, foldl_grid_eq_map _ nodata nrows ncols⟩

end Swisspeak
